import Mathlib

/-!
Verification of `rent_to_own` (`src/lib.rs`).

`RentToOwn<'a, T>` wraps a `&'a mut Option<T>` slot.  `Deref`/`DerefMut`
unwrap the option, `take` empties it (`self.inner.take().unwrap()`), and
`RentToOwn::with` fills a fresh slot with the input value, hands the wrapper
to a callback, and returns the pair of the final slot content and the
callback's result.

Shallow embedding: the slot is modelled as `Option T`.  An `unwrap` of an
empty option — the runtime manifestation of use-after-take that the crate's
lifetime trick rules out statically — is modelled as the `UseAfterTake`
error of an `Except`.  A callback is modelled by the trace of operations it
performs on the wrapper (`Cmd`): reading through `Deref`, writing through
`DerefMut`, calling `take`, or returning its result.  The interpreter `run`
executes a trace against the slot exactly as the source methods do.
-/

/-- The single error kind of the system: any wrapper access once the slot is
empty, i.e. the `unwrap()` of an empty `Option` in `Deref`, `DerefMut` or
`take` of `src/lib.rs`. -/
inductive RtoError : Type where
  | useAfterTake : RtoError
deriving DecidableEq, Repr

/-- Read access, `impl Deref for RentToOwn` (src/lib.rs:145-150):
`self.inner.as_ref().unwrap()` — yields the contained value, or panics
(use-after-take) when the slot is empty. -/
def RentToOwn.deref {T : Type} (slot : Option T) : Except RtoError T :=
  match slot with
  | some t => Except.ok t
  | none => Except.error RtoError.useAfterTake

/-- Mutable access, `impl DerefMut for RentToOwn` (src/lib.rs:152-156):
`self.inner.as_mut().unwrap()` — yields the contained value for in-place
modification, or panics (use-after-take) when the slot is empty. -/
def RentToOwn.deref_mut {T : Type} (slot : Option T) : Except RtoError T :=
  match slot with
  | some t => Except.ok t
  | none => Except.error RtoError.useAfterTake

/-- `RentToOwn::take` (src/lib.rs:229-231): `self.inner.take().unwrap()` —
removes and returns the contained value, leaving the slot empty, or panics
(use-after-take) when the slot is already empty.  Returns the taken value
together with the slot's new state. -/
def RentToOwn.take {T : Type} (slot : Option T) : Except RtoError (T × Option T) :=
  match slot with
  | some t => Except.ok (t, none)
  | none => Except.error RtoError.useAfterTake

/-- A callback handed a `&mut RentToOwn<T>`, modelled by the trace of
operations it performs on the wrapper:

* `ret u` — the callback finishes, returning `u`;
* `read k` — dereference immutably and continue with the value read;
* `mutate g k` — dereference mutably and write `g` of the old value
  through the reference, then continue;
* `take k` — call `RentToOwn::take` and continue with the taken value. -/
inductive Cmd (T U : Type) : Type where
  | ret : U → Cmd T U
  | read : (T → Cmd T U) → Cmd T U
  | mutate : (T → T) → Cmd T U → Cmd T U
  | take : (T → Cmd T U) → Cmd T U

/-- Execute a callback trace against the slot, using the source operations:
each wrapper access goes through `RentToOwn.deref` / `RentToOwn.deref_mut` /
`RentToOwn.take`, and a panic (use-after-take) aborts the whole execution. -/
def run {T U : Type} : Cmd T U → Option T → Except RtoError (Option T × U)
  | Cmd.ret u, slot => Except.ok (slot, u)
  | Cmd.read k, slot =>
    match RentToOwn.deref slot with
    | Except.ok t => run (k t) slot
    | Except.error e => Except.error e
  | Cmd.mutate g k, slot =>
    match RentToOwn.deref_mut slot with
    | Except.ok t => run k (some (g t))
    | Except.error e => Except.error e
  | Cmd.take k, slot =>
    match RentToOwn.take slot with
    | Except.ok (t, slot') => run (k t) slot'
    | Except.error e => Except.error e

/-- `RentToOwn::with` (src/lib.rs:172-182): create the slot `Some(inner)`,
run the callback on a wrapper around it, and return the pair of the final
slot content and the callback's result. -/
def RentToOwn.with {T U : Type} (inner : T) (f : Cmd T U) :
    Except RtoError (Option T × U) :=
  run f (some inner)

/-- Instrumented variant of `run` that additionally counts how many times
`RentToOwn.take` succeeded during the execution.  Used to audit that a value
is never duplicated or silently dropped. -/
def runCount {T U : Type} : Cmd T U → Option T → Except RtoError (Option T × U × Nat)
  | Cmd.ret u, slot => Except.ok (slot, u, 0)
  | Cmd.read k, slot =>
    match RentToOwn.deref slot with
    | Except.ok t => runCount (k t) slot
    | Except.error e => Except.error e
  | Cmd.mutate g k, slot =>
    match RentToOwn.deref_mut slot with
    | Except.ok t => runCount k (some (g t))
    | Except.error e => Except.error e
  | Cmd.take k, slot =>
    match RentToOwn.take slot with
    | Except.ok (t, slot') =>
      match runCount (k t) slot' with
      | Except.ok (s, u, n) => Except.ok (s, u, n + 1)
      | Except.error e => Except.error e
    | Except.error e => Except.error e

/-- The callback never calls `take`. -/
inductive NoTake {T U : Type} : Cmd T U → Prop where
  | ret (u : U) : NoTake (Cmd.ret u)
  | read (k : T → Cmd T U) : (∀ t, NoTake (k t)) → NoTake (Cmd.read k)
  | mutate (g : T → T) (k : Cmd T U) : NoTake k → NoTake (Cmd.mutate g k)

/-- The callback calls `take` exactly once and performs no further wrapper
access afterwards: the continuation of the `take` immediately returns. -/
inductive TakeOnce {T U : Type} : Cmd T U → Prop where
  | take (k : T → U) : TakeOnce (Cmd.take (fun t => Cmd.ret (k t)))
  | read (k : T → Cmd T U) : (∀ t, TakeOnce (k t)) → TakeOnce (Cmd.read k)
  | mutate (g : T → T) (k : Cmd T U) : TakeOnce k → TakeOnce (Cmd.mutate g k)

theorem run_ret {T U : Type} (u : U) (slot : Option T) :
    run (Cmd.ret u) slot = Except.ok (slot, u) := rfl

theorem run_read_some {T U : Type} (k : T → Cmd T U) (t : T) :
    run (Cmd.read k) (some t) = run (k t) (some t) := rfl

theorem run_mutate_some {T U : Type} (g : T → T) (k : Cmd T U) (t : T) :
    run (Cmd.mutate g k) (some t) = run k (some (g t)) := rfl

theorem run_take_some {T U : Type} (k : T → Cmd T U) (t : T) :
    run (Cmd.take k) (some t) = run (k t) none := rfl

theorem run_read_none {T U : Type} (k : T → Cmd T U) :
    run (Cmd.read k) none = Except.error RtoError.useAfterTake := rfl

theorem run_mutate_none {T U : Type} (g : T → T) (k : Cmd T U) :
    run (Cmd.mutate g k) none = Except.error RtoError.useAfterTake := rfl

theorem run_take_none {T U : Type} (k : T → Cmd T U) :
    run (Cmd.take k) none = Except.error RtoError.useAfterTake := rfl

/-- Once the slot is empty, a successful execution leaves it empty: the
wrapper offers no way to re-insert a value. -/
theorem run_none_ok {T U : Type} (c : Cmd T U) (slot : Option T) (u : U)
    (h : run c none = Except.ok (slot, u)) : slot = none := by
  cases c with
  | ret u' =>
    rw [run_ret] at h
    injection h with h1
    exact (congrArg Prod.fst h1).symm
  | read k => rw [run_read_none] at h; cases h
  | mutate g k => rw [run_mutate_none] at h; cases h
  | take k => rw [run_take_none] at h; cases h

/-- C1: a callback that never calls `take` runs without error, and `with`
returns a non-empty `Some` remainder (the value after the callback's
in-place mutations) paired with the callback's result. -/
theorem with_no_take_some {T U : Type} (f : Cmd T U) (h : NoTake f) (v : T) :
    ∃ v' u, RentToOwn.with v f = Except.ok (some v', u) := by
  suffices h' : ∀ w : T, ∃ v' u, run f (some w) = Except.ok (some v', u) from h' v
  induction h with
  | ret u => exact fun w => ⟨w, u, rfl⟩
  | read k hk ih => exact fun w => by rw [run_read_some]; exact ih w w
  | mutate g k hk ih => exact fun w => by rw [run_mutate_some]; exact ih (g w)

/-- Witness for C1, Scenario A: the callback that reads the value and
returns it, on input `5`. -/
theorem with_no_take_some_witness :
    NoTake (Cmd.read (Cmd.ret : Nat → Cmd Nat Nat)) ∧
      ∃ v' u, RentToOwn.with 5 (Cmd.read (Cmd.ret : Nat → Cmd Nat Nat)) =
        Except.ok (some v', u) :=
  ⟨NoTake.read _ (fun t => NoTake.ret t),
    with_no_take_some _ (NoTake.read _ (fun t => NoTake.ret t)) 5⟩

/-- C2: a callback that calls `take` exactly once and performs no further
wrapper access makes `with` return a `None` remainder paired with the
callback's result; in particular the callback that is just `take` gets the
original value back as its result. -/
theorem with_take_once_none {T U : Type} (f : Cmd T U) (h : TakeOnce f) (v : T) :
    (∃ u, RentToOwn.with v f = Except.ok (none, u)) ∧
      RentToOwn.with v (Cmd.take (Cmd.ret : T → Cmd T T)) = Except.ok (none, v) := by
  refine ⟨?_, rfl⟩
  suffices h' : ∀ w : T, ∃ u, run f (some w) = Except.ok (none, u) from h' v
  induction h with
  | take k => exact fun w => ⟨k w, rfl⟩
  | read k hk ih => exact fun w => by rw [run_read_some]; exact ih w w
  | mutate g k hk ih => exact fun w => by rw [run_mutate_some]; exact ih (g w)

/-- Witness for C2, Scenario C: `with 5 (take)` yields remainder `None` and
result `5`. -/
theorem with_take_once_none_witness :
    (∃ u, RentToOwn.with 5 (Cmd.take (Cmd.ret : Nat → Cmd Nat Nat)) =
      Except.ok (none, u)) ∧
      RentToOwn.with 5 (Cmd.take (Cmd.ret : Nat → Cmd Nat Nat)) =
        Except.ok (none, 5) :=
  with_take_once_none _ (TakeOnce.take (fun t => t)) 5

/-- C3: any wrapper access performed strictly after a successful `take` —
i.e. a `take` whose continuation is not an immediate return — is rejected
with `UseAfterTake` and never silently succeeds, so a second `take` never
returns a duplicate of the value. -/
theorem access_after_take_rejected {T U : Type} (v : T) (k : T → Cmd T U)
    (h : ∀ u, k v ≠ Cmd.ret u) :
    RentToOwn.with v (Cmd.take k) = Except.error RtoError.useAfterTake := by
  show run (Cmd.take k) (some v) = Except.error RtoError.useAfterTake
  rw [run_take_some]
  cases hkv : k v with
  | ret u => exact absurd hkv (h u)
  | read k2 => exact run_read_none k2
  | mutate g k2 => exact run_mutate_none g k2
  | take k2 => exact run_take_none k2

/-- Witness for C3, Scenario E: `with 5 (take; take)` raises `UseAfterTake`
on the second `take` instead of returning a duplicate `5`. -/
theorem access_after_take_rejected_witness :
    (∀ u : Nat, Cmd.take (Cmd.ret : Nat → Cmd Nat Nat) ≠ Cmd.ret u) ∧
      RentToOwn.with 5 (Cmd.take (fun _ => Cmd.take (Cmd.ret : Nat → Cmd Nat Nat))) =
        Except.error RtoError.useAfterTake :=
  ⟨fun _ h => Cmd.noConfusion h,
    access_after_take_rejected 5 _ (fun _ h => Cmd.noConfusion h)⟩

theorem runCount_ret {T U : Type} (u : U) (slot : Option T) :
    runCount (Cmd.ret u) slot = Except.ok (slot, u, 0) := rfl

theorem runCount_read_some {T U : Type} (k : T → Cmd T U) (t : T) :
    runCount (Cmd.read k) (some t) = runCount (k t) (some t) := rfl

theorem runCount_mutate_some {T U : Type} (g : T → T) (k : Cmd T U) (t : T) :
    runCount (Cmd.mutate g k) (some t) = runCount k (some (g t)) := rfl

theorem runCount_take_some {T U : Type} (k : T → Cmd T U) (t : T) :
    runCount (Cmd.take k) (some t) =
      match runCount (k t) none with
      | Except.ok (s, u, n) => Except.ok (s, u, n + 1)
      | Except.error e => Except.error e := rfl

/-- On an empty slot the instrumented execution can only succeed by
returning immediately: the slot stays empty and no further `take`
succeeds. -/
theorem runCount_none_ok {T U : Type} (c : Cmd T U) (slot : Option T) (u : U)
    (n : Nat) (h : runCount c none = Except.ok (slot, u, n)) :
    slot = none ∧ n = 0 := by
  cases c with
  | ret u' =>
    rw [runCount_ret] at h
    injection h with h1
    exact ⟨congrArg Prod.fst h1.symm, congrArg (fun p => p.2.2) h1.symm⟩
  | read k => exact absurd h (by rw [show runCount (Cmd.read k) none =
      Except.error RtoError.useAfterTake from rfl]; simp)
  | mutate g k => exact absurd h (by rw [show runCount (Cmd.mutate g k) none =
      Except.error RtoError.useAfterTake from rfl]; simp)
  | take k => exact absurd h (by rw [show runCount (Cmd.take k) none =
      Except.error RtoError.useAfterTake from rfl]; simp)

/-- During any successful execution started on a full slot, `take` succeeds
at most once, and it succeeded exactly once precisely when the final slot is
empty. -/
theorem runCount_some_le_one {T U : Type} (c : Cmd T U) :
    ∀ (v : T) (slot : Option T) (u : U) (n : Nat),
      runCount c (some v) = Except.ok (slot, u, n) →
      n ≤ 1 ∧ (slot = none ↔ n = 1) := by
  induction c with
  | ret u' =>
    intro v slot u n h
    rw [runCount_ret] at h
    injection h with h1
    obtain ⟨h2, _, h4⟩ : some v = slot ∧ u' = u ∧ 0 = n := by
      exact ⟨congrArg Prod.fst h1, congrArg (fun p => p.2.1) h1,
        congrArg (fun p => p.2.2) h1⟩
    subst h2; subst h4
    exact ⟨Nat.zero_le 1, by simp⟩
  | read k ih =>
    intro v slot u n h
    rw [runCount_read_some] at h
    exact ih v v slot u n h
  | mutate g k ih =>
    intro v slot u n h
    rw [runCount_mutate_some] at h
    exact ih (g v) slot u n h
  | take k ih =>
    intro v slot u n h
    rw [runCount_take_some] at h
    cases hr : runCount (k v) none with
    | error e => rw [hr] at h; cases h
    | ok sun =>
      obtain ⟨s, u', m⟩ := sun
      rw [hr] at h
      injection h with h1
      obtain ⟨hs, _, hn⟩ : s = slot ∧ u' = u ∧ m + 1 = n :=
        ⟨congrArg Prod.fst h1, congrArg (fun p => p.2.1) h1,
          congrArg (fun p => p.2.2) h1⟩
      obtain ⟨hs0, hm0⟩ := runCount_none_ok (k v) s u' m hr
      subst hs; subst hn; subst hm0; subst hs0
      exact ⟨Nat.le_refl 1, by simp⟩

/-- Erasure: a successful plain run is matched by the instrumented run with
some take count. -/
theorem run_runCount {T U : Type} (c : Cmd T U) :
    ∀ (s slot : Option T) (u : U), run c s = Except.ok (slot, u) →
      ∃ n, runCount c s = Except.ok (slot, u, n) := by
  induction c with
  | ret u' =>
    intro s slot u h
    rw [run_ret] at h
    injection h with h1
    obtain ⟨h2, h3⟩ : s = slot ∧ u' = u :=
      ⟨congrArg Prod.fst h1, congrArg Prod.snd h1⟩
    subst h2; subst h3
    exact ⟨0, rfl⟩
  | read k ih =>
    intro s slot u h
    cases s with
    | none => rw [run_read_none] at h; cases h
    | some t =>
      rw [run_read_some] at h
      obtain ⟨n, hn⟩ := ih t (some t) slot u h
      exact ⟨n, by rw [runCount_read_some]; exact hn⟩
  | mutate g k ih =>
    intro s slot u h
    cases s with
    | none => rw [run_mutate_none] at h; cases h
    | some t =>
      rw [run_mutate_some] at h
      obtain ⟨n, hn⟩ := ih (some (g t)) slot u h
      exact ⟨n, by rw [runCount_mutate_some]; exact hn⟩
  | take k ih =>
    intro s slot u h
    cases s with
    | none => rw [run_take_none] at h; cases h
    | some t =>
      rw [run_take_some] at h
      obtain ⟨n, hn⟩ := ih t none slot u h
      exact ⟨n + 1, by rw [runCount_take_some, hn]⟩

/-- C4: whenever `with` completes, exactly one outcome holds — either the
value survives as a `Some` remainder and `take` never succeeded, or `take`
succeeded exactly once and the remainder is `None`; `take` never succeeds
more than once, so the value is neither dropped nor duplicated. -/
theorem with_outcome_exclusive {T U : Type} (f : Cmd T U) (v : T)
    (slot : Option T) (u : U) (h : RentToOwn.with v f = Except.ok (slot, u)) :
    ∃ n, runCount f (some v) = Except.ok (slot, u, n) ∧
      n ≤ 1 ∧ (slot = none ↔ n = 1) := by
  obtain ⟨n, hn⟩ := run_runCount f (some v) slot u h
  obtain ⟨h1, h2⟩ := runCount_some_le_one f v slot u n hn
  exact ⟨n, hn, h1, h2⟩

/-- Witness for C4: the callback `take` on input `5` — the value was taken
exactly once and the remainder is `None`. -/
theorem with_outcome_exclusive_witness :
    ∃ n, runCount (Cmd.take (Cmd.ret : Nat → Cmd Nat Nat)) (some 5) =
      Except.ok (none, 5, n) ∧ n ≤ 1 ∧ ((none : Option Nat) = none ↔ n = 1) :=
  with_outcome_exclusive (Cmd.take (Cmd.ret : Nat → Cmd Nat Nat)) 5 none 5 rfl

/-- C5: read-your-writes — before any `take`, a read through the wrapper
observes the current slot content, including a mutation made earlier by the
same callback: after `mutate g` the subsequent read sees `g v` with the slot
holding `g v`, and Scenario B in general form: mutating and then returning
the value read yields remainder `Some (g v)` and result `g v`. -/
theorem read_reflects_mutation {T U : Type} (v : T) (g : T → T)
    (k : T → Cmd T U) :
    run (Cmd.mutate g (Cmd.read k)) (some v) = run (k (g v)) (some (g v)) ∧
      RentToOwn.with v (Cmd.mutate g (Cmd.read (Cmd.ret : T → Cmd T T))) =
        Except.ok (some (g v), g v) :=
  ⟨rfl, rfl⟩

/-- C6: `with` runs the callback once on the freshly filled slot and returns
the callback's computed value unchanged as the second component; for the
constant callback returning `u` the outcome is `(Some v, u)` (Scenario D). -/
theorem with_returns_callback_result {T U : Type} (v : T) (u : U) :
    RentToOwn.with v (Cmd.ret u) = Except.ok (some v, u) ∧
      (∀ f : Cmd T U, RentToOwn.with v f = run f (some v)) :=
  ⟨rfl, fun _ => rfl⟩

/-- C7: on a full slot `take` returns the contained value and leaves the
slot empty, and the slot then stays permanently empty: no successful
continuation of the execution ever refills it. -/
theorem take_empties_slot_permanently {T U : Type} :
    (∀ t : T, RentToOwn.take (some t) = Except.ok (t, (none : Option T))) ∧
      (∀ (c : Cmd T U) (slot : Option T) (u : U),
        run c none = Except.ok (slot, u) → slot = none) :=
  ⟨fun _ => rfl, fun c slot u h => run_none_ok c slot u h⟩

/-- Witness for C7: `take` on `Some 5` returns `5` and empties the slot, and
a completed run on the empty slot indeed ends with the slot empty. -/
theorem take_empties_slot_permanently_witness :
    RentToOwn.take (some 5) = Except.ok (5, (none : Option Nat)) ∧
      ((none : Option Nat) = none) :=
  ⟨(take_empties_slot_permanently (U := Nat)).1 5,
    (take_empties_slot_permanently (T := Nat)).2 (Cmd.ret 7) none 7 rfl⟩

/-- C8: when the slot holds a value, both `Deref` and `DerefMut` return the
contained value and the `unwrap` failure branch is unreachable. -/
theorem deref_full_slot_ok {T : Type} (t : T) :
    RentToOwn.deref (some t) = Except.ok t ∧
      RentToOwn.deref_mut (some t) = Except.ok t :=
  ⟨rfl, rfl⟩

/-- C9: `UseAfterTake` is the only error kind in the system, and `with`
never fails on its own account — a failure raised during the callback's
execution propagates unchanged through `with`'s return path. -/
theorem use_after_take_only_error {T U : Type} :
    (∀ e : RtoError, e = RtoError.useAfterTake) ∧
      (∀ (f : Cmd T U) (v : T) (e : RtoError),
        run f (some v) = Except.error e → RentToOwn.with v f = Except.error e) :=
  ⟨fun e => by cases e; rfl, fun _ _ _ h => h⟩

/-- Witness for C9: the double-`take` callback fails with `UseAfterTake`
inside the callback, and `with` reports exactly that error. -/
theorem use_after_take_only_error_witness :
    RentToOwn.with 5 (Cmd.take (fun _ => Cmd.take (Cmd.ret : Nat → Cmd Nat Nat))) =
      Except.error RtoError.useAfterTake ∧
      RtoError.useAfterTake = RtoError.useAfterTake :=
  ⟨(use_after_take_only_error (T := Nat) (U := Nat)).2
      (Cmd.take (fun _ => Cmd.take Cmd.ret)) 5 RtoError.useAfterTake rfl,
    (use_after_take_only_error (T := Nat) (U := Nat)).1 RtoError.useAfterTake⟩

/-- C10: the value returned by `take` reflects mutations made earlier in the
same callback — mutating with `g` and then taking yields `g v` as the
callback's result, with remainder `None`. -/
theorem take_sees_prior_mutation {T : Type} (v : T) (g : T → T) :
    RentToOwn.with v (Cmd.mutate g (Cmd.take (Cmd.ret : T → Cmd T T))) =
      Except.ok (none, g v) :=
  rfl
